import Mathlib

/-!
Verification of the order acquisition and deduplication pipeline of the
XcondoautoPrinter agent, shallowly embedded from `src/api.js`.

The embedding models JavaScript scalar values that can appear in vendor-id
positions (numbers, strings, and null/undefined) as an inductive `JVal`,
order records as Lean structures mirroring the fields the code reads, and
the stateful polling loop (`checkForNewOrders`) as explicit state passing
over an insertion-ordered list that models the global JS `Set` of processed
order ids. Fallible HTTP calls are modelled by an environment mapping each
distinct request the code can issue to an `Except`-valued response.
-/

namespace Xcondo

/-- A JavaScript scalar value as it can appear in a vendor-id position:
`jnull` stands for both `null` and `undefined` (an absent field), `jnum`
for an integer number, `jstr` for a string. -/
inductive JVal where
  | jnull
  | jnum (n : Int)
  | jstr (s : String)
deriving DecidableEq, Repr

namespace JVal

/-- JavaScript truthiness of a `JVal`: `null`/`undefined` and the number `0`
and the empty string are falsy, everything else is truthy. -/
def truthy : JVal → Bool
  | jnull => false
  | jnum n => n != 0
  | jstr s => s != ""

/-- JavaScript `.toString()` on a `JVal`. On `jnull` real JS would throw;
the code under verification only calls `.toString()` behind a truthiness
guard, so the value returned for `jnull` here is never observed. -/
def jToString : JVal → String
  | jnull => "null"
  | jnum n => toString n
  | jstr s => s

end JVal

/-- JavaScript `String.prototype.trim()`: strip leading and trailing
whitespace. (Defined over the character list so that it evaluates inside
the kernel; `String.trim` of core Lean does not reduce there.) -/
def jsTrim (s : String) : String :=
  String.mk
    (((s.data.dropWhile Char.isWhitespace).reverse.dropWhile
        Char.isWhitespace).reverse)

/-- One entry of a `meta_data` array: a key and a value. -/
structure Meta where
  key : String
  value : JVal
deriving DecidableEq, Repr

/-- A line item of an order, with the fields `orderBelongsToVendor` reads:
its own `meta_data` array (`none` models a missing or non-array field) and
a direct `vendor_id` field (`jnull` models its absence). -/
structure LineItem where
  meta_data : Option (List Meta)
  vendor_id : JVal
deriving DecidableEq, Repr

/-- An order record with the fields the pipeline reads. `id` is the
numeric WooCommerce order id. `meta_data` and `line_items` are `none` when
the field is missing or not an array. The five explicit `JVal` fields are
the top-level locations `orderBelongsToVendor` probes, `jnull` when absent. -/
structure Order where
  id : Nat
  meta_data : Option (List Meta)
  line_items : Option (List LineItem)
  store_id : JVal
  vendor_id : JVal
  seller_id : JVal
  store_owner_id : JVal
  dokan_vendor_id : JVal
deriving DecidableEq, Repr

/-- The order-level vendor meta keys accepted by verification 1 of
`orderBelongsToVendor` (src/api.js lines 306-311). -/
def broadVendorKey (k : String) : Bool :=
  k == "_dokan_vendor_id" || k == "dokan_vendor_id" || k == "_vendor_id" ||
  k == "vendor_id" || k == "_store_id" || k == "store_owner_id"

/-- The line-item vendor meta keys accepted by verification 2 of
`orderBelongsToVendor` (src/api.js lines 326-328). -/
def narrowVendorKey (k : String) : Bool :=
  k == "_dokan_vendor_id" || k == "vendor_id" || k == "_vendor_id"

/-- Embedding of `orderBelongsToVendor(order, vendorId)` (src/api.js lines
287-369). A `none` order models a null/undefined order argument. The early
`return true` statements of the source are rendered as a disjunction of the
three verifications, and `Array.find` as `List.any`. The source wraps the
body in try/catch returning `false`; the embedding is total, so the catch
arm has no counterpart. -/
def orderBelongsToVendor (order : Option Order) (vendorId : JVal) : Bool :=
  match order with
  | none => false
  | some o =>
    if !vendorId.truthy then false
    else
      let vendorIdStr := vendorId.jToString
      let check1 : Bool :=
        match o.meta_data with
        | some ms => ms.any fun m =>
            broadVendorKey m.key && m.value.truthy &&
              m.value.jToString == vendorIdStr
        | none => false
      let check2 : Bool :=
        match o.line_items with
        | some items => items.any fun it =>
            (match it.meta_data with
             | some ms => ms.any fun m =>
                 narrowVendorKey m.key && m.value.truthy &&
                   m.value.jToString == vendorIdStr
             | none => false)
            || (it.vendor_id.truthy && it.vendor_id.jToString == vendorIdStr)
        | none => false
      let check3 : Bool :=
        [o.store_id, o.vendor_id, o.seller_id, o.store_owner_id,
         o.dokan_vendor_id].any fun v =>
          v.truthy && v.jToString == vendorIdStr
      check1 || check2 || check3

/-- Embedding of `verifyOrdersBelongToVendor(orders, vendorId)` (src/api.js
lines 377-404): with a falsy vendorId the function returns `[]`, otherwise
it keeps exactly the orders that pass `orderBelongsToVendor`. (The audit
logging of discarded ids has no observable counterpart.) -/
def verifyOrdersBelongToVendor (orders : List Order) (vendorId : JVal) :
    List Order :=
  if !vendorId.truthy then []
  else orders.filter fun o => orderBelongsToVendor (some o) vendorId

/-- An order with no ownership annotation anywhere: no order-level meta
entry with a vendor alias key, no line item carrying a vendor meta key or a
`vendor_id` field, and all five top-level vendor fields absent. -/
def hasNoOwnershipEvidence (o : Order) : Bool :=
  (match o.meta_data with
   | some ms => ms.all fun m => !broadVendorKey m.key
   | none => true) &&
  (match o.line_items with
   | some items => items.all fun it =>
       (match it.meta_data with
        | some ms => ms.all fun m => !narrowVendorKey m.key
        | none => true) && it.vendor_id == JVal.jnull
   | none => true) &&
  (o.store_id == JVal.jnull && o.vendor_id == JVal.jnull &&
   o.seller_id == JVal.jnull && o.store_owner_id == JVal.jnull &&
   o.dokan_vendor_id == JVal.jnull)

/-! ### Processed-order ledger

The source keeps `global.processedOrders`, a JS `Set` of order ids. A JS
`Set` iterates in insertion order and `add` of an already-present element
leaves its position unchanged, so the set is modelled as a duplicate-free
`List Nat` in insertion order. -/

/-- Embedding of `global.processedOrders.add(id)`: append the id if absent,
keep the list unchanged (including the id's position) if already present,
exactly as JS `Set.prototype.add` behaves. -/
def ledgerAdd (st : List Nat) (id : Nat) : List Nat :=
  if st.contains id then st else st ++ [id]

/-- Embedding of the cache-pruning step of `checkForNewOrders` (src/api.js
lines 845-853): when the set holds more than 1000 ids it is rebuilt from
`Array.from(set).slice(-500)`, i.e. the last 500 ids in insertion order. -/
def pruneProcessedOrders (st : List Nat) : List Nat :=
  if st.length > 1000 then st.drop (st.length - 500) else st

/-- The JSON document written to `data/processed_orders.json`: the order-id
array and an ISO timestamp string. -/
structure SavedDoc where
  orders : List Nat
  lastUpdate : String
deriving DecidableEq, Repr

/-- Embedding of `saveProcessedOrdersState` (src/api.js lines 204-230): the
current set, converted to an array via `Array.from`, is written together
with the current timestamp. -/
def saveProcessedOrdersState (st : List Nat) (now : String) : SavedDoc :=
  { orders := st, lastUpdate := now }

/-- Embedding of `loadProcessedOrdersState` (src/api.js lines 233-258): a
missing file or a parse failure (`none`) yields an empty set; otherwise
`new Set(data.orders)` rebuilds the set, dropping later duplicates while
keeping first-occurrence order, which is `foldl ledgerAdd []`. -/
def loadProcessedOrdersState (file : Option SavedDoc) : List Nat :=
  match file with
  | none => []
  | some d => d.orders.foldl ledgerAdd []

/-! ### Listener lifecycle -/

/-- The module-level mutable state of the listener: the interval handle
`intervalId`, the global processed-order set (`none` when
`global.processedOrders` is still undefined), and the `isListening` flag. -/
structure ListenerGlobals where
  intervalId : Option Nat
  processedOrders : Option (List Nat)
  isListening : Bool
deriving DecidableEq, Repr

/-- Embedding of `stopOrderListener` (src/api.js lines 639-655): clear the
interval handle, and if the global set exists, persist it as it stands —
the set itself is left untouched. Returns the new globals, the document
written to disk (`none` when no save happened), and the `true` result. -/
def stopOrderListener (g : ListenerGlobals) (now : String) :
    ListenerGlobals × Option SavedDoc × Bool :=
  let doc := g.processedOrders.map fun st => saveProcessedOrdersState st now
  (⟨none, g.processedOrders, false⟩, doc, true)

/-- Embedding of the interval computation of `startOrderListener`
(src/api.js line 628): `(config.checkInterval || 60)` in seconds. `none`
models an unset (undefined/null) `checkInterval`; the number `0` is falsy
in JS, every non-zero number (negative included) is truthy. -/
def effectiveCheckIntervalSec (ci : Option Int) : Int :=
  match ci with
  | none => 60
  | some n => if n = 0 then 60 else n

/-- Embedding of `const intervalMs = (config.checkInterval || 60) * 1000`
(src/api.js line 628), the delay handed to `setInterval`. -/
def armedIntervalMs (ci : Option Int) : Int :=
  effectiveCheckIntervalSec ci * 1000

/-! ### Vendor-order fetch chain

Every HTTP request the acquisition chain can issue is one of the six
request shapes below; an environment maps each to its outcome, `Except`
modelling an axios failure. -/

/-- The distinct requests issued by the fetch chain, in the order the code
defines them: the direct `vendor_id`-parameter query and the structured
`meta_query` of `getWooCommerceOrders`, its plain `per_page=50` fetch, the
Dokan orders endpoint and its JSON `meta_query` fallback of
`getDokanOrders`, and the sorted `per_page=50` fetch of
`getAllOrdersAndFilter`. -/
inductive ApiCall where
  | wcDirect
  | wcMetaQuery
  | wcFetch50
  | dokanOrders
  | wcMetaQueryJson
  | wcFetch50Sorted
deriving DecidableEq, Repr

/-- A mock remote API: the response each request shape would receive. -/
def ApiEnv : Type := ApiCall → Except Unit (List Order)

/-- The configuration fields the acquisition core reads: `vendorId` (a
string, possibly empty) and `checkInterval` (`none` when unset). The
credential fields are consulted only for building the Basic-Auth token and
are assumed present. -/
structure Config where
  vendorId : String
  checkInterval : Option Int
deriving DecidableEq, Repr

/-- The manual filter of `getWooCommerceOrders`' third attempt (src/api.js
lines 168-177): keep orders with a `meta_data` array containing an entry
keyed `_dokan_vendor_id` or `dokan_vendor_id` whose stringified value
equals the stringified configured vendor id (no truthiness guard here,
unlike `orderBelongsToVendor`). -/
def wcInlineVendorFilter (cfg : Config) (o : Order) : Bool :=
  match o.meta_data with
  | none => false
  | some ms => ms.any fun m =>
      (m.key == "_dokan_vendor_id" || m.key == "dokan_vendor_id") &&
        m.value.jToString == cfg.vendorId

/-- Embedding of `getWooCommerceOrders(config, params)` (src/api.js lines
79-197) as invoked by `checkForNewOrders` (params carrying the vendor-id
parameter). Three attempts: the caller's params, the structured
`meta_query` (only under a non-blank `config.vendorId`), then a plain
`per_page=50` fetch filtered by `wcInlineVendorFilter`; a non-empty
response short-circuits, errors of the first two attempts are swallowed,
an error of the third propagates. Returns the issued requests and the
result. -/
def getWooCommerceOrders (env : ApiEnv) (cfg : Config) :
    List ApiCall × Except Unit (List Order) :=
  let attempt3 : List ApiCall → List ApiCall × Except Unit (List Order) :=
    fun tr =>
      match env .wcFetch50 with
      | .ok l =>
        if l.length > 0 then
          (tr ++ [.wcFetch50], .ok (l.filter (wcInlineVendorFilter cfg)))
        else (tr ++ [.wcFetch50], .ok [])
      | .error e => (tr ++ [.wcFetch50], .error e)
  let attempt2 : List ApiCall → List ApiCall × Except Unit (List Order) :=
    fun tr =>
      if jsTrim cfg.vendorId != "" then
        match env .wcMetaQuery with
        | .ok l =>
          if l.length > 0 then (tr ++ [.wcMetaQuery], .ok l)
          else attempt3 (tr ++ [.wcMetaQuery])
        | .error _ => attempt3 (tr ++ [.wcMetaQuery])
      else attempt3 tr
  match env .wcDirect with
  | .ok l => if l.length > 0 then ([.wcDirect], .ok l) else attempt2 [.wcDirect]
  | .error _ => attempt2 [.wcDirect]

/-- Embedding of `getDokanOrders(config)` (src/api.js lines 874-922): the
Dokan endpoint's response is returned as-is (no emptiness check); on its
failure the JSON `meta_query` fallback is queried, whose failure
propagates. -/
def getDokanOrders (env : ApiEnv) :
    List ApiCall × Except Unit (List Order) :=
  match env .dokanOrders with
  | .ok l => ([.dokanOrders], .ok l)
  | .error _ =>
    match env .wcMetaQueryJson with
    | .ok l => ([.dokanOrders, .wcMetaQueryJson], .ok l)
    | .error e => ([.dokanOrders, .wcMetaQueryJson], .error e)

/-- Embedding of `getAllOrdersAndFilter(config, vendorId)` (src/api.js
lines 664-716): a blank vendor id or a fetch failure is caught and yields
`[]`; otherwise the 50 most recent processing orders are filtered through
`verifyOrdersBelongToVendor`. Never fails. -/
def getAllOrdersAndFilter (env : ApiEnv) (vendorId : String) :
    List ApiCall × List Order :=
  if jsTrim vendorId == "" then ([], [])
  else
    match env .wcFetch50Sorted with
    | .ok l => ([.wcFetch50Sorted], verifyOrdersBelongToVendor l (.jstr vendorId))
    | .error _ => ([.wcFetch50Sorted], [])

/-- Embedding of the acquisition part of `checkForNewOrders` (src/api.js
lines 752-811): method 1 is `getWooCommerceOrders` with the vendor-id
params; if it yields nothing, method 2 is `getDokanOrders`; if that yields
nothing or throws, method 3 is `getAllOrdersAndFilter`; if
`getWooCommerceOrders` itself throws, the code falls back directly to
`getAllOrdersAndFilter`. Returns the issued requests and the orders the
cycle will process. -/
def fetchVendorOrders (env : ApiEnv) (cfg : Config) :
    List ApiCall × List Order :=
  let v := jsTrim cfg.vendorId
  match getWooCommerceOrders env cfg with
  | (t1, .ok l) =>
    if l.length > 0 then (t1, l)
    else
      match getDokanOrders env with
      | (t2, .ok l2) =>
        if l2.length > 0 then (t1 ++ t2, l2)
        else
          let (t3, l3) := getAllOrdersAndFilter env v
          (t1 ++ t2 ++ t3, l3)
      | (t2, .error _) =>
        let (t3, l3) := getAllOrdersAndFilter env v
        (t1 ++ t2 ++ t3, l3)
  | (t1, .error _) =>
    let (t3, l3) := getAllOrdersAndFilter env v
    (t1 ++ t3, l3)

/-! ### Dispatch loop and polling cycle -/

/-- Result of the per-order dispatch loop: the orders for which the
callback was invoked, the processed-order set afterwards, and whether a
callback exception aborted the loop. -/
structure LoopOut where
  dispatched : List Order
  processed : List Nat
  aborted : Bool
deriving DecidableEq, Repr

/-- Embedding of the dispatch loop of `checkForNewOrders` (src/api.js lines
825-839). The callback is modelled by `cb : Order → Bool`, `false` meaning
the call threw; the order of effects follows the source: ownership check,
`Set.add`, then the callback, whose exception propagates and ends the loop
(there is no per-order catch in the source). -/
def runDispatchLoop (cb : Order → Bool) (v : JVal) :
    List Order → List Nat → LoopOut
  | [], st => ⟨[], st, false⟩
  | o :: rest, st =>
    if orderBelongsToVendor (some o) v then
      let st1 := ledgerAdd st o.id
      if cb o then
        let r := runDispatchLoop cb v rest st1
        ⟨o :: r.dispatched, r.processed, r.aborted⟩
      else ⟨[o], st1, true⟩
    else runDispatchLoop cb v rest st

/-- Result of one polling cycle's processing stage. `savedAfterBatch` and
`savedAfterPrune` record the two `saveProcessedOrdersState()` call sites;
`pruned` records whether the cache-pruning branch ran. -/
structure CycleOut where
  dispatched : List Order
  processed : List Nat
  aborted : Bool
  savedAfterBatch : Bool
  pruned : Bool
  savedAfterPrune : Bool
deriving DecidableEq, Repr

/-- Embedding of the processing stage of `checkForNewOrders` (src/api.js
lines 813-859) on a fetched batch: re-verify ownership in bulk, drop ids
already in the processed set, run the dispatch loop, then save, and prune
and save again when the set exceeds 1000 ids. A callback exception skips
both saves and the prune check (it is caught only by the cycle-level
catch). -/
def runCycle (cb : Order → Bool) (vendorId : String) (st : List Nat)
    (orders : List Order) : CycleOut :=
  if orders.length > 0 then
    let verified := verifyOrdersBelongToVendor orders (.jstr vendorId)
    let fresh := verified.filter fun o => !st.contains o.id
    if fresh.length > 0 then
      let r := runDispatchLoop cb (.jstr vendorId) fresh st
      if r.aborted then ⟨r.dispatched, r.processed, true, false, false, false⟩
      else if r.processed.length > 1000 then
        ⟨r.dispatched, pruneProcessedOrders r.processed, false, true, true, true⟩
      else ⟨r.dispatched, r.processed, false, true, false, false⟩
    else ⟨[], st, false, false, false, false⟩
  else ⟨[], st, false, false, false, false⟩

/-- Embedding of one full `checkForNewOrders(config, callback)` invocation
(src/api.js lines 723-866) against a mock API: the blank-vendor guard, the
acquisition chain, then the processing stage. -/
def checkForNewOrders (env : ApiEnv) (cfg : Config) (cb : Order → Bool)
    (st : List Nat) : CycleOut :=
  if jsTrim cfg.vendorId == "" then ⟨[], st, false, false, false, false⟩
  else runCycle cb (jsTrim cfg.vendorId) st (fetchVendorOrders env cfg).2

/-- Accumulated observables of a listener session: all callback
invocations in order, the current processed set, and whether any pruning
event has occurred. -/
structure SessionOut where
  dispatched : List Order
  processed : List Nat
  prunedEver : Bool
deriving DecidableEq, Repr

/-- One session step: run a polling cycle on the next fetched batch and
accumulate its observables. -/
def sessionStep (cb : Order → Bool) (v : String) (acc : SessionOut)
    (batch : List Order) : SessionOut :=
  let out := runCycle cb v acc.processed batch
  ⟨acc.dispatched ++ out.dispatched, out.processed,
   acc.prunedEver || out.pruned⟩

/-- A listener session: starting from the processed set loaded at listener
start, run one polling cycle per fetched batch. -/
def runSession (cb : Order → Bool) (v : String) (st0 : List Nat)
    (batches : List (List Order)) : SessionOut :=
  batches.foldl (sessionStep cb v) ⟨[], st0, false⟩

/-! ### Ownership-evidence predicates used to state the claims -/

/-- The order carries an ownership annotation with value `w` in at least
one of the three locations `orderBelongsToVendor` probes: an order-level
meta entry under a broad vendor alias key, a line item (vendor-alias meta
entry or direct `vendor_id`), or one of the five top-level vendor fields. -/
def HasEvidenceValue (o : Order) (w : JVal) : Prop :=
  (∃ ms, o.meta_data = some ms ∧
    ∃ m ∈ ms, broadVendorKey m.key = true ∧ m.value = w) ∨
  (∃ items, o.line_items = some items ∧
    ∃ it ∈ items,
      ((∃ ms, it.meta_data = some ms ∧
          ∃ m ∈ ms, narrowVendorKey m.key = true ∧ m.value = w) ∨
        it.vendor_id = w)) ∨
  (o.store_id = w ∨ o.vendor_id = w ∨ o.seller_id = w ∨
    o.store_owner_id = w ∨ o.dokan_vendor_id = w)

/-- Every ownership annotation the order carries has a falsy value: each
broad-alias order meta value is falsy, each narrow-alias line-item meta
value is falsy, each line item's `vendor_id` is falsy, and all five
top-level vendor fields are falsy. -/
def allEvidenceValuesFalsy (o : Order) : Bool :=
  (match o.meta_data with
   | some ms => ms.all fun m => !broadVendorKey m.key || !m.value.truthy
   | none => true) &&
  (match o.line_items with
   | some items => items.all fun it =>
       (match it.meta_data with
        | some ms => ms.all fun m => !narrowVendorKey m.key || !m.value.truthy
        | none => true) && !it.vendor_id.truthy
   | none => true) &&
  (!o.store_id.truthy && !o.vendor_id.truthy && !o.seller_id.truthy &&
   !o.store_owner_id.truthy && !o.dokan_vendor_id.truthy)

/-! ### Concrete fixtures for counterexamples and witnesses -/

/-- A callback that always returns normally. -/
def cbOk : Order → Bool := fun _ => true

/-- A callback that throws exactly on the order with id `n`. -/
def cbFailOn (n : Nat) : Order → Bool := fun o => o.id != n

/-- An order whose only content is one order-level `_dokan_vendor_id` meta
entry with the given value. -/
def mkMetaOrder (id : Nat) (val : JVal) : Order :=
  { id := id, meta_data := some [⟨"_dokan_vendor_id", val⟩],
    line_items := none, store_id := .jnull, vendor_id := .jnull,
    seller_id := .jnull, store_owner_id := .jnull, dokan_vendor_id := .jnull }

/-- Order #100, annotated for vendor "7". -/
def orderMeta7 : Order := mkMetaOrder 100 (.jstr "7")

/-- Order #101, annotated for vendor "7". -/
def orderMeta7b : Order := mkMetaOrder 101 (.jstr "7")

/-- Order #200, annotated for vendor "7", served by the Dokan endpoint. -/
def orderDokanA : Order := mkMetaOrder 200 (.jstr "7")

/-- Order #201, annotated for vendor "7", served by the Dokan endpoint. -/
def orderDokanB : Order := mkMetaOrder 201 (.jstr "7")

/-- Order #300 whose vendor annotation is the number `42`. -/
def orderNum42 : Order := mkMetaOrder 300 (.jnum 42)

/-- Order #301 whose only vendor annotation is the top-level `vendor_id`
field holding the string "42". -/
def orderTop42 : Order :=
  { id := 301, meta_data := none, line_items := none, store_id := .jnull,
    vendor_id := .jstr "42", seller_id := .jnull, store_owner_id := .jnull,
    dokan_vendor_id := .jnull }

/-- Order #302 whose only vendor annotation has the falsy value `0`. -/
def orderZeroMeta : Order := mkMetaOrder 302 (.jnum 0)

/-- Order #400 carrying no annotation at all. -/
def emptyOrder : Order :=
  { id := 400, meta_data := none, line_items := none, store_id := .jnull,
    vendor_id := .jnull, seller_id := .jnull, store_owner_id := .jnull,
    dokan_vendor_id := .jnull }

/-- Configuration for vendor "7". -/
def cfg7 : Config := { vendorId := "7", checkInterval := none }

/-- Mock API where the direct query and the meta query return empty lists,
the plain `per_page=50` fetch returns one matching order, and the Dokan
endpoint would return two other orders. -/
def envC3 : ApiEnv := fun c =>
  match c with
  | .wcDirect => .ok []
  | .wcMetaQuery => .ok []
  | .wcFetch50 => .ok [orderMeta7]
  | .dokanOrders => .ok [orderDokanA, orderDokanB]
  | .wcMetaQueryJson => .ok []
  | .wcFetch50Sorted => .ok []

/-- Mock API where every strategy before the Dokan endpoint returns an
empty list and the Dokan endpoint returns two orders. -/
def envDokan : ApiEnv := fun c =>
  match c with
  | .wcDirect => .ok []
  | .wcMetaQuery => .ok []
  | .wcFetch50 => .ok []
  | .dokanOrders => .ok [orderDokanA, orderDokanB]
  | .wcMetaQueryJson => .ok []
  | .wcFetch50Sorted => .ok []

/-- Listener globals holding an armed timer and one processed id. -/
def globalsWithOrder : ListenerGlobals :=
  { intervalId := some 1, processedOrders := some [100], isListening := true }

/-! ### Lemmas about the ownership verifier -/

/-- Unfolding of `orderBelongsToVendor` on a present order and a truthy
vendor id: the disjunction of the three verifications. -/
theorem orderBelongsToVendor_some (o : Order) (v : JVal)
    (hv : v.truthy = true) :
    orderBelongsToVendor (some o) v =
      ((match o.meta_data with
        | some ms => ms.any fun m =>
            broadVendorKey m.key && m.value.truthy &&
              m.value.jToString == v.jToString
        | none => false) ||
       (match o.line_items with
        | some items => items.any fun it =>
            (match it.meta_data with
             | some ms => ms.any fun m =>
                 narrowVendorKey m.key && m.value.truthy &&
                   m.value.jToString == v.jToString
             | none => false)
            || (it.vendor_id.truthy && it.vendor_id.jToString == v.jToString)
        | none => false) ||
       ([o.store_id, o.vendor_id, o.seller_id, o.store_owner_id,
         o.dokan_vendor_id].any fun w =>
          w.truthy && w.jToString == v.jToString)) := by
  simp only [orderBelongsToVendor]
  rw [if_neg (show ¬((!v.truthy) = true) by simp [hv])]

/-- Any single piece of ownership evidence whose value stringifies to the
(truthy) vendor id makes `orderBelongsToVendor` succeed. -/
theorem belongs_of_evidence (o : Order) (v w : JVal) (hv : v.truthy = true)
    (hw : w.truthy = true) (hs : w.jToString = v.jToString)
    (h : HasEvidenceValue o w) : orderBelongsToVendor (some o) v = true := by
  rw [orderBelongsToVendor_some o v hv]
  simp only [Bool.or_eq_true]
  rcases h with ⟨ms, hms, m, hm, hkey, hval⟩ |
    ⟨items, hits, it, hit, hcase⟩ | hf
  · refine Or.inl (Or.inl ?_)
    rw [hms]
    refine List.any_eq_true.mpr ⟨m, hm, ?_⟩
    simp [hkey, hval, hw, hs]
  · refine Or.inl (Or.inr ?_)
    rw [hits]
    refine List.any_eq_true.mpr ⟨it, hit, ?_⟩
    rcases hcase with ⟨ms, hms, m, hm, hkey, hval⟩ | hvid
    · simp only [Bool.or_eq_true]
      refine Or.inl ?_
      rw [hms]
      refine List.any_eq_true.mpr ⟨m, hm, ?_⟩
      simp [hkey, hval, hw, hs]
    · simp only [Bool.or_eq_true]
      refine Or.inr ?_
      simp [hvid, hw, hs]
  · refine Or.inr ?_
    rcases hf with h | h | h | h | h
    · exact List.any_eq_true.mpr ⟨o.store_id, by simp, by simp [h, hw, hs]⟩
    · exact List.any_eq_true.mpr ⟨o.vendor_id, by simp, by simp [h, hw, hs]⟩
    · exact List.any_eq_true.mpr ⟨o.seller_id, by simp, by simp [h, hw, hs]⟩
    · exact List.any_eq_true.mpr
        ⟨o.store_owner_id, by simp, by simp [h, hw, hs]⟩
    · exact List.any_eq_true.mpr
        ⟨o.dokan_vendor_id, by simp, by simp [h, hw, hs]⟩

/-- Completeness of `HasEvidenceValue`: a successful ownership check
exhibits a truthy evidence value stringifying to the vendor id. -/
theorem evidence_of_belongs (o : Order) (v : JVal)
    (hb : orderBelongsToVendor (some o) v = true) :
    ∃ w, HasEvidenceValue o w ∧ w.truthy = true ∧
      w.jToString = v.jToString := by
  by_cases hv : v.truthy = true
  · rw [orderBelongsToVendor_some o v hv] at hb
    simp only [Bool.or_eq_true] at hb
    rcases hb with (hb | hb) | hb
    · cases hmd : o.meta_data with
      | none => rw [hmd] at hb; simp at hb
      | some ms =>
        rw [hmd] at hb
        obtain ⟨m, hm, hp⟩ := List.any_eq_true.mp hb
        simp only [Bool.and_eq_true] at hp
        obtain ⟨⟨hkey, htr⟩, heq⟩ := hp
        exact ⟨m.value, Or.inl ⟨ms, hmd, m, hm, hkey, rfl⟩, htr,
          eq_of_beq heq⟩
    · cases hli : o.line_items with
      | none => rw [hli] at hb; simp at hb
      | some items =>
        rw [hli] at hb
        obtain ⟨it, hit, hp⟩ := List.any_eq_true.mp hb
        simp only [Bool.or_eq_true] at hp
        rcases hp with hp | hp
        · cases hmd : it.meta_data with
          | none => rw [hmd] at hp; simp at hp
          | some ms =>
            rw [hmd] at hp
            obtain ⟨m, hm, hq⟩ := List.any_eq_true.mp hp
            simp only [Bool.and_eq_true] at hq
            obtain ⟨⟨hkey, htr⟩, heq⟩ := hq
            exact ⟨m.value,
              Or.inr (Or.inl ⟨items, hli, it, hit,
                Or.inl ⟨ms, hmd, m, hm, hkey, rfl⟩⟩),
              htr, eq_of_beq heq⟩
        · simp only [Bool.and_eq_true] at hp
          exact ⟨it.vendor_id,
            Or.inr (Or.inl ⟨items, hli, it, hit, Or.inr rfl⟩),
            hp.1, eq_of_beq hp.2⟩
    · obtain ⟨x, hx, hp⟩ := List.any_eq_true.mp hb
      simp only [Bool.and_eq_true] at hp
      simp only [List.mem_cons, List.not_mem_nil, or_false] at hx
      rcases hx with h | h | h | h | h <;> subst h
      · exact ⟨o.store_id, Or.inr (Or.inr (Or.inl rfl)), hp.1,
          eq_of_beq hp.2⟩
      · exact ⟨o.vendor_id, Or.inr (Or.inr (Or.inr (Or.inl rfl))), hp.1,
          eq_of_beq hp.2⟩
      · exact ⟨o.seller_id,
          Or.inr (Or.inr (Or.inr (Or.inr (Or.inl rfl)))), hp.1,
          eq_of_beq hp.2⟩
      · exact ⟨o.store_owner_id,
          Or.inr (Or.inr (Or.inr (Or.inr (Or.inr (Or.inl rfl))))), hp.1,
          eq_of_beq hp.2⟩
      · exact ⟨o.dokan_vendor_id,
          Or.inr (Or.inr (Or.inr (Or.inr (Or.inr (Or.inr rfl))))), hp.1,
          eq_of_beq hp.2⟩
  · have hvf : v.truthy = false := by simpa [Bool.not_eq_true] using hv
    simp [orderBelongsToVendor, hvf] at hb

/-- An order with no structural ownership annotation has no evidence value
at all (for truthy candidate values; a `jnull` top-level field is only
"evidence" of the value `jnull`, which is falsy). -/
theorem no_evidence_of_noOwnership (o : Order) (w : JVal)
    (h : hasNoOwnershipEvidence o = true) (hw : w.truthy = true) :
    ¬ HasEvidenceValue o w := by
  simp only [hasNoOwnershipEvidence, Bool.and_eq_true] at h
  obtain ⟨⟨h1, h2⟩, h3⟩ := h
  simp only [Bool.and_eq_true, beq_iff_eq] at h3
  intro hev
  rcases hev with ⟨ms, hms, m, hm, hkey, _⟩ |
    ⟨items, hits, it, hit, hcase⟩ | hf
  · rw [hms] at h1
    have := List.all_eq_true.mp h1 m hm
    simp only [Bool.not_eq_true'] at this
    exact absurd hkey (by simp [this])
  · rw [hits] at h2
    have hall := List.all_eq_true.mp h2 it hit
    simp only [Bool.and_eq_true, beq_iff_eq] at hall
    rcases hcase with ⟨ms, hms, m, hm, hkey, _⟩ | hvid
    · rw [hms] at hall
      have := List.all_eq_true.mp hall.1 m hm
      simp only [Bool.not_eq_true'] at this
      exact absurd hkey (by simp [this])
    · rw [hall.2] at hvid
      rw [← hvid] at hw
      simp [JVal.truthy] at hw
  · obtain ⟨⟨⟨⟨ha, hb⟩, hc⟩, hd⟩, he⟩ := h3
    rcases hf with h | h | h | h | h <;>
      first
      | (rw [ha] at h; rw [← h] at hw; simp [JVal.truthy] at hw)
      | (rw [hb] at h; rw [← h] at hw; simp [JVal.truthy] at hw)
      | (rw [hc] at h; rw [← h] at hw; simp [JVal.truthy] at hw)
      | (rw [hd] at h; rw [← h] at hw; simp [JVal.truthy] at hw)
      | (rw [he] at h; rw [← h] at hw; simp [JVal.truthy] at hw)

/-- A falsy value can never be the value of evidence in an order all of
whose annotation values are falsy. -/
theorem no_truthy_evidence_of_allFalsy (o : Order) (w : JVal)
    (h : allEvidenceValuesFalsy o = true) (hw : w.truthy = true) :
    ¬ HasEvidenceValue o w := by
  simp only [allEvidenceValuesFalsy, Bool.and_eq_true] at h
  obtain ⟨⟨h1, h2⟩, h3⟩ := h
  simp only [Bool.and_eq_true, Bool.not_eq_true'] at h3
  obtain ⟨⟨⟨⟨ha, hb⟩, hc⟩, hd⟩, he⟩ := h3
  intro hev
  rcases hev with ⟨ms, hms, m, hm, hkey, hval⟩ |
    ⟨items, hits, it, hit, hcase⟩ | hf
  · rw [hms] at h1
    have := List.all_eq_true.mp h1 m hm
    simp only [hkey, Bool.not_true, Bool.false_or, Bool.not_eq_true'] at this
    rw [hval] at this
    rw [this] at hw
    exact Bool.false_ne_true hw
  · rw [hits] at h2
    have hall := List.all_eq_true.mp h2 it hit
    simp only [Bool.and_eq_true, Bool.not_eq_true'] at hall
    rcases hcase with ⟨ms, hms, m, hm, hkey, hval⟩ | hvid
    · rw [hms] at hall
      have := List.all_eq_true.mp hall.1 m hm
      simp only [hkey, Bool.not_true, Bool.false_or,
        Bool.not_eq_true'] at this
      rw [hval] at this
      rw [this] at hw
      exact Bool.false_ne_true hw
    · rw [hvid] at hall
      rw [hall.2] at hw
      exact Bool.false_ne_true hw
  · rcases hf with h | h | h | h | h
    · rw [h] at ha; rw [ha] at hw; exact Bool.false_ne_true hw
    · rw [h] at hb; rw [hb] at hw; exact Bool.false_ne_true hw
    · rw [h] at hc; rw [hc] at hw; exact Bool.false_ne_true hw
    · rw [h] at hd; rw [hd] at hw; exact Bool.false_ne_true hw
    · rw [h] at he; rw [he] at hw; exact Bool.false_ne_true hw

/-- C2: `orderBelongsToVendor` is fail-closed — it returns `false` on a
null/missing order, on a null/missing vendor id, and on every order that
carries none of the three categories of ownership evidence (order-level
vendor meta, line-item vendor meta or `vendor_id`, top-level vendor
fields). The Lean embedding is a total function, so the "never throws"
part of the claim holds by construction. -/
theorem c2_belongs_fail_closed :
    (∀ v : JVal, orderBelongsToVendor none v = false) ∧
    (∀ o : Option Order, orderBelongsToVendor o JVal.jnull = false) ∧
    (∀ (o : Order) (v : JVal), hasNoOwnershipEvidence o = true →
      orderBelongsToVendor (some o) v = false) := by
  refine ⟨fun _ => rfl, ?_, ?_⟩
  · intro o
    cases o with
    | none => rfl
    | some o => simp [orderBelongsToVendor, JVal.truthy]
  · intro o v h
    cases hb : orderBelongsToVendor (some o) v with
    | false => rfl
    | true =>
      obtain ⟨w, hev, hwt, _⟩ := evidence_of_belongs o v hb
      exact absurd hev (no_evidence_of_noOwnership o w h hwt)

/-- Witness for C2 at concrete inputs: a missing order, a missing vendor
id, and the evidence-free order #400 with vendor "7". -/
theorem c2_belongs_fail_closed_witness :
    orderBelongsToVendor none (JVal.jstr "7") = false ∧
    orderBelongsToVendor (some emptyOrder) JVal.jnull = false ∧
    hasNoOwnershipEvidence emptyOrder = true ∧
    orderBelongsToVendor (some emptyOrder) (JVal.jstr "7") = false :=
  ⟨c2_belongs_fail_closed.1 _, c2_belongs_fail_closed.2.1 _, by decide,
   c2_belongs_fail_closed.2.2 emptyOrder _ (by decide)⟩

/-- C7: vendor ids are compared as strings after coercion — ownership
evidence holding the number `42` matches the configured vendor id string
"42", and evidence holding the string "42" matches the configured numeric
vendor id `42`, wherever the evidence sits. -/
theorem c7_string_coercion (o : Order) :
    (HasEvidenceValue o (JVal.jnum 42) →
      orderBelongsToVendor (some o) (JVal.jstr "42") = true) ∧
    (HasEvidenceValue o (JVal.jstr "42") →
      orderBelongsToVendor (some o) (JVal.jnum 42) = true) :=
  ⟨fun h => belongs_of_evidence o _ _ (by decide) (by decide) (by decide) h,
   fun h => belongs_of_evidence o _ _ (by decide) (by decide) (by decide) h⟩

/-- Witness for C7: order #300 carries meta value `42` (number) and is
accepted for vendor id "42" (string); order #301 carries the top-level
string "42" and is accepted for the numeric vendor id `42`. -/
theorem c7_string_coercion_witness :
    HasEvidenceValue orderNum42 (JVal.jnum 42) ∧
    orderBelongsToVendor (some orderNum42) (JVal.jstr "42") = true ∧
    HasEvidenceValue orderTop42 (JVal.jstr "42") ∧
    orderBelongsToVendor (some orderTop42) (JVal.jnum 42) = true :=
  have h1 : HasEvidenceValue orderNum42 (JVal.jnum 42) :=
    Or.inl ⟨[⟨"_dokan_vendor_id", .jnum 42⟩], rfl,
      ⟨"_dokan_vendor_id", .jnum 42⟩, by simp, by decide, rfl⟩
  have h2 : HasEvidenceValue orderTop42 (JVal.jstr "42") :=
    Or.inr (Or.inr (Or.inr (Or.inl rfl)))
  ⟨h1, (c7_string_coercion orderNum42).1 h1,
   h2, (c7_string_coercion orderTop42).2 h2⟩

/-- C10: ownership evidence whose stored value is falsy (the number 0, an
empty string, or null) never counts as a match — an order all of whose
annotation values are falsy is rejected for every configured vendor id. -/
theorem c10_falsy_evidence_ignored (o : Order) (v : JVal)
    (h : allEvidenceValuesFalsy o = true) :
    orderBelongsToVendor (some o) v = false := by
  cases hb : orderBelongsToVendor (some o) v with
  | false => rfl
  | true =>
    obtain ⟨w, hev, hwt, _⟩ := evidence_of_belongs o v hb
    exact absurd hev (no_truthy_evidence_of_allFalsy o w h hwt)

/-- Witness for C10: order #302, whose only annotation is the meta value
`0`, is rejected even for the configured vendor id "0". -/
theorem c10_falsy_evidence_ignored_witness :
    allEvidenceValuesFalsy orderZeroMeta = true ∧
    orderBelongsToVendor (some orderZeroMeta) (JVal.jstr "0") = false :=
  ⟨by decide, c10_falsy_evidence_ignored orderZeroMeta _ (by decide)⟩

/-! ### Lemmas about the processed-order ledger -/

/-- Folding `ledgerAdd` over fresh distinct ids appends them in order. -/
theorem foldl_ledgerAdd_eq_append :
    ∀ (l acc : List Nat), (∀ x ∈ l, x ∉ acc) → l.Nodup →
      l.foldl ledgerAdd acc = acc ++ l := by
  intro l
  induction l with
  | nil => intro acc _ _; simp
  | cons a t ih =>
    intro acc hdisj hnd
    have ha : a ∉ acc := hdisj a (by simp)
    have hAdd : ledgerAdd acc a = acc ++ [a] := by
      simp [ledgerAdd, ha]
    rw [List.foldl_cons, hAdd,
      ih (acc ++ [a]) ?_ (List.Nodup.of_cons hnd)]
    · simp
    · intro x hx hmem
      rcases List.mem_append.mp hmem with h | h
      · exact hdisj x (List.mem_cons_of_mem a hx) h
      · rw [List.mem_singleton] at h
        subst h
        exact (List.nodup_cons.mp hnd).1 hx

/-- C4: whenever the processed set holds more than 1000 ids it is replaced
by exactly its last 500 ids in insertion order; the pruning branch of the
cycle always persists immediately (the post-prune save fires exactly when
the prune fires); and after 1001 distinct ids have been added to an empty
set, the pruned set is exactly the 500 most recently added ids. -/
theorem c4_prune_keeps_recent_500 :
    (∀ st : List Nat, st.length > 1000 →
      pruneProcessedOrders st = st.drop (st.length - 500) ∧
      (pruneProcessedOrders st).length = 500) ∧
    (∀ (cb : Order → Bool) (v : String) (st : List Nat)
        (orders : List Order),
      (runCycle cb v st orders).savedAfterPrune =
        (runCycle cb v st orders).pruned) ∧
    (∀ ids : List Nat, ids.Nodup → ids.length = 1001 →
      pruneProcessedOrders (ids.foldl ledgerAdd []) = ids.drop 501 ∧
      (pruneProcessedOrders (ids.foldl ledgerAdd [])).length = 500) := by
  have hprune : ∀ st : List Nat, st.length > 1000 →
      pruneProcessedOrders st = st.drop (st.length - 500) ∧
      (pruneProcessedOrders st).length = 500 := by
    intro st h
    have he : pruneProcessedOrders st = st.drop (st.length - 500) := by
      simp [pruneProcessedOrders, h]
    refine ⟨he, ?_⟩
    rw [he, List.length_drop]
    omega
  refine ⟨hprune, ?_, ?_⟩
  · intro cb v st orders
    simp only [runCycle]
    repeat' split
    all_goals rfl
  · intro ids hnd hlen
    have hf : ids.foldl ledgerAdd [] = ids := by
      simpa using foldl_ledgerAdd_eq_append ids [] (by simp) hnd
    have h1 := (hprune ids (by omega)).1
    have h2 := (hprune ids (by omega)).2
    rw [hlen] at h1
    norm_num at h1
    exact ⟨by rw [hf, h1], by rw [hf]; exact h2⟩

/-- Witness for C4: the 1001 distinct ids `0, …, 1000` leave, after
pruning, exactly the last 500 of them. -/
theorem c4_prune_keeps_recent_500_witness :
    (List.range 1001).Nodup ∧ (List.range 1001).length = 1001 ∧
    pruneProcessedOrders ((List.range 1001).foldl ledgerAdd []) =
      (List.range 1001).drop 501 ∧
    (pruneProcessedOrders ((List.range 1001).foldl ledgerAdd [])).length
      = 500 :=
  ⟨List.nodup_range 1001, by simp,
   (c4_prune_keeps_recent_500.2.2 (List.range 1001) (List.nodup_range 1001)
     (by simp)).1,
   (c4_prune_keeps_recent_500.2.2 (List.range 1001) (List.nodup_range 1001)
     (by simp)).2⟩

/-- C9: saving the processed set and loading it back restores exactly the
same set — `loadProcessedOrdersState` after `saveProcessedOrdersState` is
the identity on (duplicate-free, as every reachable set is) states, via
the persisted `{ orders, lastUpdate }` document. -/
theorem c9_state_round_trip (st : List Nat) (now : String)
    (hnd : st.Nodup) :
    loadProcessedOrdersState (some (saveProcessedOrdersState st now)) =
      st := by
  simp only [loadProcessedOrdersState, saveProcessedOrdersState]
  simpa using foldl_ledgerAdd_eq_append st [] (by simp) hnd

/-- Witness for C9: the state `[1, 2, 3]` survives a save/load cycle. -/
theorem c9_state_round_trip_witness :
    ([1, 2, 3] : List Nat).Nodup ∧
    loadProcessedOrdersState
      (some (saveProcessedOrdersState [1, 2, 3] "2026-01-01T00:00:00Z")) =
      [1, 2, 3] :=
  ⟨by decide, c9_state_round_trip _ _ (by decide)⟩

/-- C6 counterexample: stopping the listener with processed id 100 in
memory neither clears the in-memory set nor persists an empty id list —
the claim is false at this input. -/
theorem c6_counterexample :
    ¬ (((stopOrderListener globalsWithOrder "t").1.processedOrders =
          some ([] : List Nat)) ∧
       ((stopOrderListener globalsWithOrder "t").2.1 =
          some { orders := [], lastUpdate := "t" })) := by
  decide

/-- C6 amended: when the listener stops, the timer handle is cleared and
the processed-order set is persisted exactly as it stands; the in-memory
set is retained, not cleared. -/
theorem c6_stop_persists_without_clearing (g : ListenerGlobals)
    (st : List Nat) (now : String) (h : g.processedOrders = some st) :
    (stopOrderListener g now).1.intervalId = none ∧
    (stopOrderListener g now).1.isListening = false ∧
    (stopOrderListener g now).1.processedOrders = some st ∧
    (stopOrderListener g now).2.1 =
      some { orders := st, lastUpdate := now } ∧
    (stopOrderListener g now).2.2 = true := by
  simp [stopOrderListener, h, saveProcessedOrdersState]

/-- Witness for C6 (amended) at the concrete globals holding id 100. -/
theorem c6_stop_persists_witness :
    globalsWithOrder.processedOrders = some [100] ∧
    (stopOrderListener globalsWithOrder "t").1.processedOrders =
      some [100] ∧
    (stopOrderListener globalsWithOrder "t").2.1 =
      some { orders := [100], lastUpdate := "t" } :=
  ⟨rfl,
   (c6_stop_persists_without_clearing globalsWithOrder [100] "t"
     rfl).2.2.1,
   (c6_stop_persists_without_clearing globalsWithOrder [100] "t"
     rfl).2.2.2.1⟩

/-- C8 counterexample: a negative `checkInterval` of -5 is not replaced by
60 — `(config.checkInterval || 60)` keeps the truthy value -5. -/
theorem c8_counterexample :
    ¬ (effectiveCheckIntervalSec (some (-5)) = 60) := by decide

/-- C8 amended: the timer is armed at `checkInterval * 1000` milliseconds;
an unset or zero `checkInterval` falls back to 60 seconds, but every
non-zero value — negative values included — is used as-is. -/
theorem c8_interval_fallback :
    effectiveCheckIntervalSec none = 60 ∧
    effectiveCheckIntervalSec (some 0) = 60 ∧
    (∀ n : Int, n ≠ 0 → effectiveCheckIntervalSec (some n) = n) ∧
    (∀ ci : Option Int,
      armedIntervalMs ci = effectiveCheckIntervalSec ci * 1000) := by
  refine ⟨rfl, rfl, ?_, fun _ => rfl⟩
  intro n hn
  simp [effectiveCheckIntervalSec, hn]

/-- Witness for C8 (amended) at -5 and 0. -/
theorem c8_interval_fallback_witness :
    ((-5 : Int) ≠ 0) ∧ effectiveCheckIntervalSec (some (-5)) = -5 ∧
    armedIntervalMs (some 0) = effectiveCheckIntervalSec (some 0) * 1000 :=
  ⟨by decide, c8_interval_fallback.2.2.1 (-5) (by decide),
   c8_interval_fallback.2.2.2 (some 0)⟩

/-- C3 counterexample: with strategies 1 and 2 empty and the vendor
endpoint holding two orders, the fetch neither returns the vendor
endpoint's list nor even queries it — the interleaved `per_page=50`
local-filter attempt inside `getWooCommerceOrders` answers first. -/
theorem c3_counterexample :
    envC3 ApiCall.wcDirect = .ok [] ∧
    envC3 ApiCall.wcMetaQuery = .ok [] ∧
    envC3 ApiCall.dokanOrders = .ok [orderDokanA, orderDokanB] ∧
    (fetchVendorOrders envC3 cfg7).1 =
      [ApiCall.wcDirect, ApiCall.wcMetaQuery, ApiCall.wcFetch50] ∧
    (fetchVendorOrders envC3 cfg7).2 = [orderMeta7] ∧
    (fetchVendorOrders envC3 cfg7).2 ≠ [orderDokanA, orderDokanB] ∧
    ApiCall.dokanOrders ∉ (fetchVendorOrders envC3 cfg7).1 := by
  refine ⟨rfl, rfl, rfl, ?_, ?_, ?_, ?_⟩ <;> decide

/-- C3 amended: the chain short-circuits in the order direct query,
structured meta query, local-filtered `per_page=50` fetch, vendor
endpoint, verifier-filtered fetch; when the first three steps yield empty
results and the vendor endpoint returns a non-empty list, the result is
exactly that list and the final fetch-and-filter strategy is never
attempted. -/
theorem c3_escalation_short_circuit (env : ApiEnv) (cfg : Config)
    (L : List Order)
    (h1 : env ApiCall.wcDirect = .ok [])
    (h2 : env ApiCall.wcMetaQuery = .ok [])
    (h3 : env ApiCall.wcFetch50 = .ok [])
    (h4 : env ApiCall.dokanOrders = .ok L) (hL : L ≠ [])
    (hv : jsTrim cfg.vendorId ≠ "") :
    fetchVendorOrders env cfg =
      ([ApiCall.wcDirect, ApiCall.wcMetaQuery, ApiCall.wcFetch50,
        ApiCall.dokanOrders], L) ∧
    ApiCall.wcFetch50Sorted ∉ (fetchVendorOrders env cfg).1 := by
  have hlen : L.length > 0 := List.length_pos.mpr hL
  have hbv : (jsTrim cfg.vendorId != "") = true := bne_iff_ne.mpr hv
  have hmain : fetchVendorOrders env cfg =
      ([ApiCall.wcDirect, ApiCall.wcMetaQuery, ApiCall.wcFetch50,
        ApiCall.dokanOrders], L) := by
    simp only [fetchVendorOrders, getWooCommerceOrders, getDokanOrders,
      h1, h2, h3, h4, hbv]
    simp [hlen]
  refine ⟨hmain, ?_⟩
  rw [hmain]
  dsimp only
  decide

/-- Witness for C3 (amended): the mock API with everything empty before a
two-order Dokan endpoint yields exactly those two orders after four
requests. -/
theorem c3_escalation_short_circuit_witness :
    envDokan ApiCall.wcFetch50 = .ok [] ∧
    jsTrim cfg7.vendorId ≠ "" ∧
    fetchVendorOrders envDokan cfg7 =
      ([ApiCall.wcDirect, ApiCall.wcMetaQuery, ApiCall.wcFetch50,
        ApiCall.dokanOrders], [orderDokanA, orderDokanB]) :=
  ⟨rfl, by decide,
   (c3_escalation_short_circuit envDokan cfg7 _ rfl rfl rfl rfl
     (by decide) (by decide)).1⟩

/-! ### Lemmas about the dispatch loop and the polling cycle -/

/-- Adding an id puts it in the set. -/
theorem mem_ledgerAdd_self (st : List Nat) (id : Nat) :
    id ∈ ledgerAdd st id := by
  by_cases h : st.contains id = true
  · simp only [ledgerAdd, if_pos h]
    simpa using h
  · simp only [ledgerAdd, if_neg h]
    simp

/-- Adding an id keeps every id already in the set. -/
theorem mem_ledgerAdd_of_mem (st : List Nat) (x id : Nat) (h : x ∈ st) :
    x ∈ ledgerAdd st id := by
  unfold ledgerAdd
  split <;> simp [h]

/-- The dispatched orders of a loop run form a sublist of its input. -/
theorem runDispatchLoop_dispatched_sublist (cb : Order → Bool) (v : JVal) :
    ∀ (orders : List Order) (st : List Nat),
      (runDispatchLoop cb v orders st).dispatched.Sublist orders := by
  intro orders
  induction orders with
  | nil => intro st; simp [runDispatchLoop]
  | cons o rest ih =>
    intro st
    simp only [runDispatchLoop]
    split
    · split
      · exact List.Sublist.cons₂ o (ih _)
      · exact List.Sublist.cons₂ o (List.nil_sublist rest)
    · exact List.Sublist.cons o (ih st)

/-- The loop only ever adds to the processed set. -/
theorem runDispatchLoop_mem_processed (cb : Order → Bool) (v : JVal) :
    ∀ (orders : List Order) (st : List Nat) (x : Nat), x ∈ st →
      x ∈ (runDispatchLoop cb v orders st).processed := by
  intro orders
  induction orders with
  | nil => intro st x hx; simpa [runDispatchLoop] using hx
  | cons o rest ih =>
    intro st x hx
    simp only [runDispatchLoop]
    split
    · split
      · exact ih _ x (mem_ledgerAdd_of_mem st x o.id hx)
      · exact mem_ledgerAdd_of_mem st x o.id hx
    · exact ih st x hx

/-- Every order the loop dispatched was added to the processed set (the
add happens before the callback, so this holds on abort too). -/
theorem runDispatchLoop_dispatched_id_mem (cb : Order → Bool) (v : JVal) :
    ∀ (orders : List Order) (st : List Nat) (o' : Order),
      o' ∈ (runDispatchLoop cb v orders st).dispatched →
      o'.id ∈ (runDispatchLoop cb v orders st).processed := by
  intro orders
  induction orders with
  | nil => intro st o' h; simp [runDispatchLoop] at h
  | cons o rest ih =>
    intro st o' h
    simp only [runDispatchLoop] at h ⊢
    by_cases hb : orderBelongsToVendor (some o) v = true
    · rw [if_pos hb] at h ⊢
      by_cases hc : cb o = true
      · rw [if_pos hc] at h ⊢
        rcases List.mem_cons.mp h with rfl | h'
        · exact runDispatchLoop_mem_processed cb v rest _ _
            (mem_ledgerAdd_self st o'.id)
        · exact ih _ o' h'
      · rw [if_neg hc] at h ⊢
        rcases List.mem_singleton.mp h with rfl
        exact mem_ledgerAdd_self st o'.id
    · rw [if_neg hb] at h ⊢
      exact ih st o' h

/-- Exhaustive description of a polling cycle: either nothing was fresh
(state unchanged), or the cycle ran the dispatch loop on the fresh,
verified orders, ending by aborting, pruning, or a plain save. -/
theorem runCycle_spec (cb : Order → Bool) (v : String) (st : List Nat)
    (orders : List Order) :
    runCycle cb v st orders = ⟨[], st, false, false, false, false⟩ ∨
    (∃ r : LoopOut,
      r = runDispatchLoop cb (JVal.jstr v)
            ((verifyOrdersBelongToVendor orders (JVal.jstr v)).filter
              fun o => !st.contains o.id) st ∧
      (runCycle cb v st orders =
          ⟨r.dispatched, r.processed, true, false, false, false⟩ ∨
       runCycle cb v st orders =
          ⟨r.dispatched, pruneProcessedOrders r.processed, false, true,
            true, true⟩ ∨
       runCycle cb v st orders =
          ⟨r.dispatched, r.processed, false, true, false, false⟩)) := by
  simp only [runCycle]
  split
  · split
    · split
      · exact Or.inr ⟨_, rfl, Or.inl rfl⟩
      · split
        · exact Or.inr ⟨_, rfl, Or.inr (Or.inl rfl)⟩
        · exact Or.inr ⟨_, rfl, Or.inr (Or.inr rfl)⟩
    · exact Or.inl rfl
  · exact Or.inl rfl

/-- A cycle that did not prune keeps every previously processed id. -/
theorem runCycle_processed_mono (cb : Order → Bool) (v : String)
    (st : List Nat) (orders : List Order)
    (hp : (runCycle cb v st orders).pruned = false) :
    ∀ x ∈ st, x ∈ (runCycle cb v st orders).processed := by
  intro x hx
  rcases runCycle_spec cb v st orders with h | ⟨r, hr, h | h | h⟩
  · rw [h]; exact hx
  · rw [h]; subst hr
    exact runDispatchLoop_mem_processed _ _ _ _ _ hx
  · rw [h] at hp; simp at hp
  · rw [h]; subst hr
    exact runDispatchLoop_mem_processed _ _ _ _ _ hx

/-- A batch with pairwise distinct ids dispatches pairwise distinct ids. -/
theorem runCycle_dispatched_nodup (cb : Order → Bool) (v : String)
    (st : List Nat) (orders : List Order)
    (hn : (orders.map Order.id).Nodup) :
    ((runCycle cb v st orders).dispatched.map Order.id).Nodup := by
  rcases runCycle_spec cb v st orders with h | ⟨r, hr, h | h | h⟩ <;> rw [h]
  · simp
  all_goals
    subst hr
    refine hn.sublist (List.Sublist.map Order.id ?_)
    exact ((runDispatchLoop_dispatched_sublist _ _ _ _).trans
      (List.filter_sublist _)).trans (by
        unfold verifyOrdersBelongToVendor
        split
        · exact List.nil_sublist orders
        · exact List.filter_sublist _)

/-- Every order a cycle dispatches was not yet in the processed set. -/
theorem runCycle_dispatched_not_mem (cb : Order → Bool) (v : String)
    (st : List Nat) (orders : List Order) (o' : Order)
    (h : o' ∈ (runCycle cb v st orders).dispatched) : o'.id ∉ st := by
  rcases runCycle_spec cb v st orders with hh | ⟨r, hr, hh | hh | hh⟩ <;>
    rw [hh] at h
  · simp at h
  all_goals
    subst hr
    have hfresh : o' ∈ (verifyOrdersBelongToVendor orders
        (JVal.jstr v)).filter fun o => !st.contains o.id :=
      (runDispatchLoop_dispatched_sublist _ _ _ _).subset h
    simpa using (List.mem_filter.mp hfresh).2

/-- After a non-pruning cycle, every dispatched order's id sits in the
processed set. -/
theorem runCycle_dispatched_id_mem (cb : Order → Bool) (v : String)
    (st : List Nat) (orders : List Order) (o' : Order)
    (hp : (runCycle cb v st orders).pruned = false)
    (h : o' ∈ (runCycle cb v st orders).dispatched) :
    o'.id ∈ (runCycle cb v st orders).processed := by
  rcases runCycle_spec cb v st orders with hh | ⟨r, hr, hh | hh | hh⟩
  · rw [hh] at h; simp at h
  · rw [hh] at h ⊢; subst hr
    exact runDispatchLoop_dispatched_id_mem _ _ _ _ _ h
  · rw [hh] at hp; simp at hp
  · rw [hh] at h ⊢; subst hr
    exact runDispatchLoop_dispatched_id_mem _ _ _ _ _ h

/-- Once a pruning event is recorded, the rest of the session keeps it. -/
theorem sessionFold_prunedEver_mono (cb : Order → Bool) (v : String) :
    ∀ (batches : List (List Order)) (acc : SessionOut),
      acc.prunedEver = true →
      (batches.foldl (sessionStep cb v) acc).prunedEver = true := by
  intro batches
  induction batches with
  | nil => intro acc h; simpa using h
  | cons b bs ih =>
    intro acc h
    rw [List.foldl_cons]
    exact ih _ (by simp [sessionStep, h])

/-- Main session invariant: in a session segment with duplicate-free
batches and no pruning event, the accumulated dispatched ids stay
duplicate-free and all sit in the processed set. -/
theorem sessionFold_dispatch_unique (cb : Order → Bool) (v : String) :
    ∀ (batches : List (List Order)) (acc : SessionOut),
      (∀ b ∈ batches, (b.map Order.id).Nodup) →
      (batches.foldl (sessionStep cb v) acc).prunedEver = false →
      (acc.dispatched.map Order.id).Nodup →
      (∀ o ∈ acc.dispatched, o.id ∈ acc.processed) →
      ((batches.foldl (sessionStep cb v) acc).dispatched.map
        Order.id).Nodup ∧
      (∀ o ∈ (batches.foldl (sessionStep cb v) acc).dispatched,
        o.id ∈ (batches.foldl (sessionStep cb v) acc).processed) := by
  intro batches
  induction batches with
  | nil => intro acc _ _ h1 h2; exact ⟨h1, h2⟩
  | cons b bs ih =>
    intro acc hb hpf h1 h2
    rw [List.foldl_cons] at hpf ⊢
    have hpacc : (sessionStep cb v acc b).prunedEver = false := by
      by_cases hc : (sessionStep cb v acc b).prunedEver = true
      · have habs := sessionFold_prunedEver_mono cb v bs _ hc
        rw [habs] at hpf
        cases hpf
      · simpa using hc
    have hsplit : acc.prunedEver = false ∧
        (runCycle cb v acc.processed b).pruned = false := by
      have : (acc.prunedEver ||
          (runCycle cb v acc.processed b).pruned) = false := hpacc
      simpa only [Bool.or_eq_false_iff] using this
    have hb0 : (b.map Order.id).Nodup := hb b (by simp)
    have hbs : ∀ x ∈ bs, (x.map Order.id).Nodup :=
      fun x hx => hb x (by simp [hx])
    have hdn : ((acc.dispatched ++
        (runCycle cb v acc.processed b).dispatched).map Order.id).Nodup := by
      rw [List.map_append]
      refine List.Nodup.append h1
        (runCycle_dispatched_nodup cb v acc.processed b hb0) ?_
      intro x hx1 hx2
      obtain ⟨o1, ho1, rfl⟩ := List.mem_map.mp hx1
      obtain ⟨o2, ho2, hid⟩ := List.mem_map.mp hx2
      have hin : o1.id ∈ acc.processed := h2 o1 ho1
      have hnotin : o2.id ∉ acc.processed :=
        runCycle_dispatched_not_mem cb v acc.processed b o2 ho2
      rw [hid] at hnotin
      exact hnotin hin
    have hdm : ∀ o ∈ acc.dispatched ++
        (runCycle cb v acc.processed b).dispatched,
        o.id ∈ (runCycle cb v acc.processed b).processed := by
      intro o ho
      rcases List.mem_append.mp ho with ho | ho
      · exact runCycle_processed_mono cb v acc.processed b hsplit.2
          o.id (h2 o ho)
      · exact runCycle_dispatched_id_mem cb v acc.processed b o
          hsplit.2 ho
    exact ih (sessionStep cb v acc b) hbs hpf
      (by simpa [sessionStep] using hdn)
      (by simpa [sessionStep] using hdm)

/-- C1 counterexample: in a session whose single fetched batch lists the
same order (id 100) twice, the callback is invoked twice for id 100 — the
at-most-once claim is false as stated. -/
theorem c1_counterexample :
    ¬ (((runSession cbOk "7" [] [[orderMeta7, orderMeta7]]).dispatched.map
        Order.id).count 100 ≤ 1) := by decide

/-- C1 amended: within one listener session, provided no single fetched
batch repeats an order id and no pruning event occurs, the callback is
invoked at most once per order id, however many polling cycles run and
however often the same id is re-fetched across cycles. -/
theorem c1_dispatch_at_most_once (cb : Order → Bool) (v : String)
    (st0 : List Nat) (batches : List (List Order))
    (hb : ∀ b ∈ batches, (b.map Order.id).Nodup)
    (hp : (runSession cb v st0 batches).prunedEver = false) :
    ∀ i : Nat,
      ((runSession cb v st0 batches).dispatched.map Order.id).count i
        ≤ 1 := by
  have h := sessionFold_dispatch_unique cb v batches ⟨[], st0, false⟩ hb hp
    (by simp) (by simp)
  exact fun i => List.nodup_iff_count_le_one.mp h.1 i

/-- Witness for C1 (amended): two successive cycles both fetching order
#100 dispatch it once. -/
theorem c1_dispatch_at_most_once_witness :
    (∀ b ∈ [[orderMeta7], [orderMeta7]], (b.map Order.id).Nodup) ∧
    (runSession cbOk "7" [] [[orderMeta7], [orderMeta7]]).prunedEver
      = false ∧
    ((runSession cbOk "7" [] [[orderMeta7], [orderMeta7]]).dispatched.map
        Order.id).count 100 ≤ 1 :=
  ⟨by decide, by decide,
   c1_dispatch_at_most_once cbOk "7" [] [[orderMeta7], [orderMeta7]]
     (by decide) (by decide) 100⟩

/-- C5: the dispatch loop does **not** isolate per-order callback
failures. In a batch of two orders owned by vendor "7", a callback that
throws on order #100 aborts the cycle: order #101 passes the ownership
check yet is never dispatched, and the post-batch save is skipped; the
ledger add of #100 is retained (not rolled back). -/
theorem c5_callback_throw_aborts_batch :
    orderBelongsToVendor (some orderMeta7b) (JVal.jstr "7") = true ∧
    (runCycle (cbFailOn 100) "7" [] [orderMeta7, orderMeta7b]).dispatched
      = [orderMeta7] ∧
    (runCycle (cbFailOn 100) "7" [] [orderMeta7, orderMeta7b]).aborted
      = true ∧
    orderMeta7b ∉
      (runCycle (cbFailOn 100) "7" [] [orderMeta7, orderMeta7b]).dispatched ∧
    (runCycle (cbFailOn 100) "7" []
        [orderMeta7, orderMeta7b]).savedAfterBatch = false ∧
    (runCycle (cbFailOn 100) "7" [] [orderMeta7, orderMeta7b]).processed
      = [100] := by
  refine ⟨?_, ?_, ?_, ?_, ?_, ?_⟩ <;> decide

end Xcondo
